import Mathlib

/-!
Shallow embedding of the `objectfile` package (object_file.go): the mapping
data model, program-segment selection, the lazy once-guarded relocation-base
computation behind `ObjAddr`, the `open` loader, and `Close`.

External collaborators (`elf.NewFile`, `buildid.BuildID`,
`elfexec.FindTextProgHeader`, `elfexec.GetBase`) are kept abstract: they are
carried as fields of an `Env` record and the theorems quantify over them.
The two `elfexec` lookups whose observable behaviour the spec pins down
(`ProgramHeadersForMapping`, `HeaderForFileOffset`) live in this repository
but outside the provided sources, so they are modelled from the spec (see
their doc comments).

Machine integers: all `uint64` values are `Nat` with wraparound made explicit
through `sub64`/`add64` (reduction modulo `2^64`) at the two places the Go
code can wrap (`addr - f.base`, `addr - m.start + m.offset`).
-/

deriving instance DecidableEq for Except

namespace ParcaObjectFile

/-- Width of a 64-bit machine word. -/
def W : Nat := 2 ^ 64

/-- `uint64` subtraction `a - b` with wraparound, for `a b < W`. -/
def sub64 (a b : Nat) : Nat := (a + W - b % W) % W

/-- `uint64` addition with wraparound. -/
def add64 (a b : Nat) : Nat := (a + b) % W

/-- Errors produced by the embedded code.  Core-produced errors are structured
(carrying the values the Go code formats into the message); errors coming out
of the abstract collaborators are `external` with an opaque tag.  `noSymbols`
models the sentinel `elf.ErrNoSymbols`.  `joined1`/`joined2` model
`errors.Join` applied to one resp. two non-nil errors. -/
inductive Err where
  | external (tag : String)
  | nilFile
  | noSymbols
  | outOfBounds (addr mstart mlimit : Nat) (path : String)
  | findPHWrap (path : String) (addr : Nat) (inner : Err)
  | couldNotIdentifyBase (path : String) (inner : Err)
  | noProgHeaderMatches
  | noHeaderForOffset (fileOffset : Nat)
  | ambiguousHeaderForOffset (fileOffset : Nat)
  | joined1 (e : Err)
  | joined2 (e1 e2 : Err)
deriving DecidableEq, Repr

/-- The ELF file header, opaque to this core: it is only ever passed through
to the base-computation primitive. -/
structure FileHeader where
  tag : Nat
deriving DecidableEq, Repr

/-- The fields of `elf.ProgHeader` this core reads. -/
structure ProgHeader where
  ptype : Nat
  flags : Nat
  off : Nat
  vaddr : Nat
  filesz : Nat
  memsz : Nat
deriving DecidableEq, Repr

/-- `elf.PT_LOAD`. -/
def PT_LOAD : Nat := 1

/-- `elf.PF_X` (executable-permission flag bit). -/
def PF_X : Nat := 1

/-- A parsed ELF structure, as read by this core: the file header, the program
headers, and the outcome of `(*elf.File).Symbols()` (symbol name and value
pairs, or an error — `Err.noSymbols` standing for `elf.ErrNoSymbols`). -/
structure ElfFile where
  fileHeader : FileHeader
  progs : List ProgHeader
  symtab : Except Err (List (String × Nat))
deriving Repr

/-- The runtime mapping parameters (`mapping` in object_file.go). -/
structure Mapping where
  start : Nat
  limit : Nat
  offset : Nat
  kernelOffset : Option Nat
deriving DecidableEq, Repr

/-- An `*os.File`: its name and the outcome its `Close` method will report. -/
structure GoFile where
  name : String
  closeRes : Option Err
deriving DecidableEq, Repr

/-- The `ObjectFile` struct.  `baseDone` is the consumed/unconsumed state of
`baseOnce`; `base`, `isData`, `baseErr` start at their Go zero values
(`0`, `false`, `nil`). -/
structure ObjectFile where
  path : String
  buildID : String
  file : Option GoFile
  debuginfoFile : Option GoFile
  baseDone : Bool
  base : Nat
  isData : Bool
  baseErr : Option Err
  m : Option Mapping

/-- The abstract collaborators consumed by `open` and `computeBase`:
the result of re-parsing the backing file (`elf.NewFile`), the build-ID
extractor, `elfexec.FindTextProgHeader`, and `elfexec.GetBase` (arguments:
file header, selected program header or none, kernel offset, start, limit,
offset). -/
structure Env where
  elfNewFileRes : Except Err ElfFile
  buildIDRes : Except Err String
  findText : ElfFile → Option ProgHeader
  getBase : FileHeader → Option ProgHeader → Option Nat → Nat → Nat → Nat → Except Err Nat

/-- Modelled from the spec: `elfexec.ProgramHeadersForMapping` is not under
the provided sources; per §4.3 it filters the loadable segments to "those
segments whose file-offset range overlaps the mapping's
`(offset, limit - start)` window". -/
def programHeadersForMapping (phdrs : List ProgHeader) (mapOff mapSz : Nat) :
    List ProgHeader :=
  phdrs.filter fun h => decide (h.off < mapOff + mapSz) && decide (mapOff < h.off + h.filesz)

/-- The headers of `headers` whose file-offset range contains `fileOffset`. -/
def containingHeaders (headers : List ProgHeader) (fileOffset : Nat) :
    List ProgHeader :=
  headers.filter fun h => decide (h.off ≤ fileOffset) && decide (fileOffset < h.off + h.filesz)

/-- Modelled from the spec: `elfexec.HeaderForFileOffset` is not under the
provided sources; per §4.3 it selects "the segment whose file-offset range
contains that translated offset", failing "if none or the lookup is itself
ambiguous". -/
def headerForFileOffset (headers : List ProgHeader) (fileOffset : Nat) :
    Except Err ProgHeader :=
  match containingHeaders headers fileOffset with
  | [h] => .ok h
  | [] => .error (.noHeaderForOffset fileOffset)
  | _ => .error (.ambiguousHeaderForOffset fileOffset)

/-- The loadable (`PT_LOAD`) program headers of a parsed ELF file. -/
def loadableSegments (ef : ElfFile) : List ProgHeader :=
  ef.progs.filter fun p => p.ptype == PT_LOAD

/-- The file offset `addr - m.start + m.offset` the queried address is
translated to for disambiguation (uint64 arithmetic). -/
def Mapping.translatedFileOffset (m : Mapping) (addr : Nat) : Nat :=
  add64 (sub64 addr m.start) m.offset

/-- `(*mapping).findProgramHeader`, parametric in the delegated text-segment
lookup `findText` (`elfexec.FindTextProgHeader`). -/
def Mapping.findProgramHeader (findText : ElfFile → Option ProgHeader)
    (m : Mapping) (ef : ElfFile) (addr : Nat) : Except Err (Option ProgHeader) :=
  if m.kernelOffset.isSome ∨ m.limit ≤ m.start ∨ 2 ^ 63 ≤ m.limit then
    .ok (findText ef)
  else
    match loadableSegments ef with
    | [] => .ok none
    | p :: ps =>
      match programHeadersForMapping (p :: ps) m.offset (m.limit - m.start) with
      | [] => .error .noProgHeaderMatches
      | [h] => .ok (some h)
      | headers => (headerForFileOffset headers (m.translatedFileOffset addr)).map some

/-- `(*ObjectFile).computeBase`: returns the updated `base`/`isData` fields
together with the error value the Go function returns (which the caller
stores into `baseErr`). -/
def ObjectFile.computeBase (env : Env) (f : ObjectFile) (addr : Nat) :
    ObjectFile × Option Err :=
  match f.m with
  | none => (f, none)
  | some m =>
    if addr < m.start ∨ m.limit ≤ addr then
      (f, some (.outOfBounds addr m.start m.limit f.path))
    else
      match env.elfNewFileRes with
      | .error e => (f, some e)
      | .ok ef =>
        match Mapping.findProgramHeader env.findText m ef addr with
        | .error e => (f, some (.findPHWrap f.path addr e))
        | .ok ph =>
          match env.getBase ef.fileHeader ph m.kernelOffset m.start m.limit m.offset with
          | .error e => (f, some e)
          | .ok base =>
            ({ f with
                base := base,
                -- `ph != nil && ph.Flags&elf.PF_X == 0`; PF_X is bit 0.
                isData := match ph with
                  | some h => h.flags % 2 == 0
                  | none => false }, none)

/-- `(*ObjectFile).ObjAddr`: runs the once-guarded `computeBase` when the
`sync.Once` has not fired yet, then reports the stored outcome.  Returns the
updated handle, the call's result, and whether this call executed the
re-parse/select/compute sequence. -/
def ObjectFile.ObjAddr (env : Env) (f : ObjectFile) (addr : Nat) :
    ObjectFile × Except Err Nat × Bool :=
  let ran := !f.baseDone
  let f1 :=
    if f.baseDone then f
    else
      { (f.computeBase env addr).1 with
          baseErr := (f.computeBase env addr).2, baseDone := true }
  match f1.baseErr with
  | some e => (f1, .error e, ran)
  | none => (f1, .ok (sub64 addr f1.base), ran)

/-- The outcome a resolved handle reports for `addr`: the cached error, or
`addr - base` (uint64 subtraction). -/
def storedOutcome (f : ObjectFile) (addr : Nat) : Except Err Nat :=
  match f.baseErr with
  | some e => .error e
  | none => .ok (sub64 addr f.base)

/-- Runs a sequence of `ObjAddr` calls (one arbitrary serialization order of
racing callers), collecting each call's result and its ran-the-computation
flag. -/
def runCalls (env : Env) (f : ObjectFile) : List Nat → ObjectFile × List (Except Err Nat × Bool)
  | [] => (f, [])
  | a :: rest =>
    ((runCalls env (f.ObjAddr env a).1 rest).1,
      (f.ObjAddr env a).2 :: (runCalls env (f.ObjAddr env a).1 rest).2)

/-- `sub.isPrefixOf`-based substring test over character lists. -/
def containsSeq (sub : List Char) : List Char → Bool
  | [] => sub.isEmpty
  | c :: t => sub.isPrefixOf (c :: t) || containsSeq sub t

/-- `strings.Contains`. -/
def strContains (s sub : String) : Bool := containsSeq sub.data s.data

/-- The condition in `open` deciding whether the symbol table is scanned:
the path contains "vmlinux", or `start`, `limit` or `offset` is not
page-aligned (4096). -/
def needsSymbolScan (filePath : String) (start limit offset : Nat) : Bool :=
  strContains filePath "vmlinux" || !(start % 4096 == 0) || !(limit % 4096 == 0)
    || !(offset % 4096 == 0)

/-- The symbol-scan block of `open`: fetch the symbols (treating
`elf.ErrNoSymbols` as an empty table, any other error as fatal), default the
relocation symbol to `_stext` when empty, and take the value of the first
symbol with that name. -/
def scanKernelOffset (symtab : Except Err (List (String × Nat)))
    (relocationSymbol : String) : Except Err (Option Nat) :=
  match symtab with
  | .error .noSymbols => .ok (scanFind [] relocationSymbol)
  | .error e => .error e
  | .ok syms => .ok (scanFind syms relocationSymbol)
where
  scanFind (syms : List (String × Nat)) (relocationSymbol : String) : Option Nat :=
    let rs := if relocationSymbol == "" then "_stext" else relocationSymbol
    (syms.find? fun s => s.1 == rs).map (·.2)

/-- The arguments `open` passes to the feasibility call of `elfexec.GetBase`:
file header, program header (or none), kernel offset, start, limit, offset. -/
structure GetBaseArgs where
  fh : FileHeader
  ph : Option ProgHeader
  kernelOffset : Option Nat
  start : Nat
  limit : Nat
  offset : Nat
deriving DecidableEq, Repr

/-- Trace of an `open` run: whether `Symbols()` was invoked, and the argument
tuple of the feasibility `GetBase` call when it was reached. -/
structure OpenTrace where
  scanned : Bool
  getBaseArgs : Option GetBaseArgs
deriving DecidableEq, Repr

/-- The package-level `open` function, returning its observable trace
alongside its result. -/
def openGo (env : Env) (f : Option GoFile) (start limit offset : Nat)
    (relocationSymbol : String) : OpenTrace × Except Err ObjectFile :=
  match f with
  | none => (⟨false, none⟩, .error .nilFile)
  | some file =>
    match env.elfNewFileRes with
    | .error e => (⟨false, none⟩, .error e)
    | .ok elfFile =>
      let filePath := file.name
      let buildID := match env.buildIDRes with | .ok id => id | .error _ => ""
      let scan := needsSymbolScan filePath start limit offset
      match (if scan then scanKernelOffset elfFile.symtab relocationSymbol else .ok none : Except Err (Option Nat)) with
      | .error e => (⟨scan, none⟩, .error e)
      | .ok kernelOffset =>
        let args : GetBaseArgs :=
          ⟨elfFile.fileHeader, env.findText elfFile, kernelOffset, start, limit, offset⟩
        match env.getBase elfFile.fileHeader (env.findText elfFile) kernelOffset start limit offset with
        | .error e => (⟨scan, some args⟩, .error (.couldNotIdentifyBase filePath e))
        | .ok _ => (⟨scan, some args⟩,
            .ok { path := filePath
                  buildID := buildID
                  file := some file
                  debuginfoFile := none
                  baseDone := false
                  base := 0
                  isData := false
                  baseErr := none
                  m := some ⟨start, limit, offset, kernelOffset⟩ })

/-- `errors.Join` restricted to two arguments: nil when both are nil,
otherwise a join node over the non-nil ones. -/
def errorsJoin (a b : Option Err) : Option Err :=
  match a, b with
  | none, none => none
  | some x, none => some (.joined1 x)
  | none, some y => some (.joined1 y)
  | some x, some y => some (.joined2 x y)

/-- `(*ObjectFile).Close` on a possibly-nil receiver: returns the names of
the file fields whose `Close` was attempted, and the accumulated error. -/
def closeGo (o : Option ObjectFile) : List String × Option Err :=
  let step1 : List String × Option Err :=
    match o with
    | some ob =>
      match ob.file with
      | some f => (["File"], errorsJoin none f.closeRes)
      | none => ([], none)
    | none => ([], none)
  match o with
  | some ob =>
    match ob.debuginfoFile with
    | some df => (step1.1 ++ ["DebuginfoFile"], errorsJoin step1.2 df.closeRes)
    | none => step1
  | none => step1

/-! Concrete fixtures used to instantiate the theorems below. -/

/-- A parsed ELF file with no program headers and an empty symbol table. -/
def ef0 : ElfFile := { fileHeader := ⟨0⟩, progs := [], symtab := .ok [] }

/-- An environment whose re-parse yields `ef0` and whose base computation
always returns `4096`. -/
def env0 : Env :=
  { elfNewFileRes := .ok ef0
    buildIDRes := .ok "bid"
    findText := fun _ => none
    getBase := fun _ _ _ _ _ _ => .ok 4096 }

/-- A freshly opened handle mapped at `[4096, 8192)`. -/
def st0 : ObjectFile :=
  { path := "lib.so", buildID := "", file := none, debuginfoFile := none
    baseDone := false, base := 0, isData := false, baseErr := none
    m := some ⟨4096, 8192, 0, none⟩ }

/-- A fresh handle whose internal mapping is absent. -/
def stNil : ObjectFile := { st0 with m := none }

/-- An executable loadable segment covering file offsets `[0, 4096)`. -/
def pA : ProgHeader :=
  { ptype := 1, flags := 1, off := 0, vaddr := 0, filesz := 4096, memsz := 4096 }

/-- A non-executable loadable segment covering file offsets `[4096, 8192)`. -/
def pB : ProgHeader :=
  { ptype := 1, flags := 0, off := 4096, vaddr := 4096, filesz := 4096, memsz := 4096 }

/-- An ELF file holding the two loadable segments `pA`, `pB`. -/
def efU : ElfFile := { fileHeader := ⟨1⟩, progs := [pA, pB], symtab := .ok [] }

/-- A userspace mapping `[4096, 12288)` at file offset 0: both `pA` and `pB`
overlap its window. -/
def mU : Mapping := ⟨4096, 12288, 0, none⟩

/-- A kernel-style mapping (`kernelOffset` set). -/
def mK : Mapping := ⟨4096, 8192, 0, some 7⟩

/-- A backing file whose path does not trigger the symbol scan. -/
def file5 : GoFile := { name := "libc.so", closeRes := none }

/-- An ELF file whose text lookup will return `pA`. -/
def ef5 : ElfFile := { fileHeader := ⟨5⟩, progs := [pA], symtab := .ok [] }

/-- An environment for `openGo` whose text lookup returns `pA`. -/
def env5 : Env :=
  { elfNewFileRes := .ok ef5
    buildIDRes := .ok "bid"
    findText := fun _ => some pA
    getBase := fun _ _ _ _ _ _ => .ok 0 }

/-- A backing file named `vmlinux`, forcing the symbol scan. -/
def file6 : GoFile := { name := "vmlinux", closeRes := none }

/-- An ELF file whose symbol table is absent (`elf.ErrNoSymbols`). -/
def ef6 : ElfFile := { fileHeader := ⟨6⟩, progs := [], symtab := .error .noSymbols }

/-- An environment for `openGo` around `ef6`. -/
def env6 : Env :=
  { elfNewFileRes := .ok ef6
    buildIDRes := .error (.external "nobid")
    findText := fun _ => none
    getBase := fun _ _ _ _ _ _ => .ok 0 }

/-- A primary-file close failure. -/
def eA : Err := .external "closeA"

/-- A debug-info-file close failure. -/
def eB : Err := .external "closeB"

/-- A handle whose two file resources both fail to close. -/
def obC : ObjectFile :=
  { st0 with file := some ⟨"f", some eA⟩, debuginfoFile := some ⟨"d", some eB⟩ }

/-- The handle state after the once-guarded resolution step of `ObjAddr`. -/
def resolveState (env : Env) (f : ObjectFile) (addr : Nat) : ObjectFile :=
  if f.baseDone then f
  else { (f.computeBase env addr).1 with
          baseErr := (f.computeBase env addr).2, baseDone := true }

/-! Helper lemmas about `ObjAddr`. -/

theorem objAddr_eq (env : Env) (f : ObjectFile) (addr : Nat) :
    f.ObjAddr env addr =
      (resolveState env f addr,
        storedOutcome (resolveState env f addr) addr, !f.baseDone) := by
  show (match (resolveState env f addr).baseErr with
        | some e => (resolveState env f addr, Except.error e, !f.baseDone)
        | none => (resolveState env f addr,
            Except.ok (sub64 addr (resolveState env f addr).base), !f.baseDone)) =
      (resolveState env f addr,
        storedOutcome (resolveState env f addr) addr, !f.baseDone)
  unfold storedOutcome
  cases h : (resolveState env f addr).baseErr <;> rfl

theorem objAddr_done_state (env : Env) (f : ObjectFile) (addr : Nat) :
    (f.ObjAddr env addr).1.baseDone = true := by
  rw [objAddr_eq]
  unfold resolveState
  split
  case _ h => exact h
  case _ => rfl

theorem objAddr_of_done (env : Env) (f : ObjectFile) (addr : Nat)
    (h : f.baseDone = true) :
    f.ObjAddr env addr = (f, storedOutcome f addr, false) := by
  rw [objAddr_eq]
  simp [resolveState, h]

/-- C1: the outcome of the first `ObjAddr` call on a handle (base or error) is
stored permanently: the first call runs the computation and marks the handle
resolved; any subsequent call with any address leaves the handle unchanged,
does not re-run the computation, and returns the stored outcome — the
identical cached error on failure, `addr - base` from the stored base on
success. -/
theorem c1_first_outcome_permanent (env : Env) (f : ObjectFile) (a1 a2 : Nat)
    (h : f.baseDone = false) :
    ((f.ObjAddr env a1).1.baseDone = true) ∧
    ((f.ObjAddr env a1).2.2 = true) ∧
    (((f.ObjAddr env a1).1.ObjAddr env a2).1 = (f.ObjAddr env a1).1) ∧
    (((f.ObjAddr env a1).1.ObjAddr env a2).2.2 = false) ∧
    (∀ e, (f.ObjAddr env a1).1.baseErr = some e →
        ((f.ObjAddr env a1).1.ObjAddr env a2).2.1 = .error e) ∧
    ((f.ObjAddr env a1).1.baseErr = none →
        ((f.ObjAddr env a1).1.ObjAddr env a2).2.1 =
          .ok (sub64 a2 (f.ObjAddr env a1).1.base)) := by
  have hd := objAddr_done_state env f a1
  have h2 := objAddr_of_done env (f.ObjAddr env a1).1 a2 hd
  refine ⟨hd, ?_, ?_, ?_, ?_, ?_⟩
  · rw [objAddr_eq, h]; rfl
  · rw [h2]
  · rw [h2]
  · intro e he
    rw [h2]
    simp [storedOutcome, he]
  · intro he
    rw [h2]
    simp [storedOutcome, he]

/-- Witness for C1: on `st0` the first call at the out-of-bounds address
`9999` fails; the second call at the in-bounds address `5000` returns the
identical cached error. -/
theorem c1_first_outcome_permanent_witness :
    ((st0.ObjAddr env0 9999).1.ObjAddr env0 5000).2.1 =
      .error (.outOfBounds 9999 4096 8192 "lib.so") :=
  (c1_first_outcome_permanent env0 st0 9999 5000 rfl).2.2.2.2.1
    (.outOfBounds 9999 4096 8192 "lib.so") rfl

/-- C4 counterexample: a handle mapped at `[4096, 8192)` whose first call (at
`4096`) succeeded returns success for the out-of-bounds address `0` on the
next call — `translate` does not fail for every out-of-bounds address. -/
theorem c4_counterexample :
    ((st0.ObjAddr env0 4096).1.m = some ⟨4096, 8192, 0, none⟩) ∧
    (0 < 4096) ∧
    (((st0.ObjAddr env0 4096).1.ObjAddr env0 0).2.1 = .ok (2 ^ 64 - 4096)) :=
  ⟨rfl, by decide, by decide⟩

/-- C4 amended: the bounds check applies to the resolving (first) call only —
for a not-yet-resolved handle with mapping `m`, an address below `m.start` or
at/above `m.limit` fails with the bounds error, which is also stored. -/
theorem c4_first_call_bounds (env : Env) (f : ObjectFile) (m : Mapping) (a : Nat)
    (hdone : f.baseDone = false) (hm : f.m = some m)
    (hout : a < m.start ∨ m.limit ≤ a) :
    (f.ObjAddr env a).2.1 = .error (.outOfBounds a m.start m.limit f.path) ∧
    (f.ObjAddr env a).1.baseErr = some (.outOfBounds a m.start m.limit f.path) := by
  have hcb : f.computeBase env a = (f, some (.outOfBounds a m.start m.limit f.path)) := by
    unfold ObjectFile.computeBase
    rw [hm]
    dsimp only
    rw [if_pos hout]
  have hrs : resolveState env f a =
      { f with baseErr := some (.outOfBounds a m.start m.limit f.path),
               baseDone := true } := by
    simp [resolveState, hdone, hcb]
  rw [objAddr_eq]
  exact ⟨by simp [storedOutcome, hrs], by simp [hrs]⟩

/-- Witness for the amended C4: address `0` is below `st0`'s mapping start
`4096` and the first call fails with the bounds error. -/
theorem c4_first_call_bounds_witness :
    (st0.ObjAddr env0 0).2.1 = .error (.outOfBounds 0 4096 8192 "lib.so") :=
  (c4_first_call_bounds env0 st0 ⟨4096, 8192, 0, none⟩ 0 rfl rfl
    (Or.inl (by decide))).1

/-- C9: on a handle whose internal mapping is absent, the first `ObjAddr` call
records success with base `0` (no bounds check is reached), so it returns the
address unchanged and succeeds for every address. -/
theorem c9_nil_mapping_identity (env : Env) (f : ObjectFile) (a : Nat)
    (hm : f.m = none) (hdone : f.baseDone = false) (hbase : f.base = 0)
    (ha : a < W) :
    (f.ObjAddr env a).2.1 = .ok a ∧
    (f.ObjAddr env a).1.baseErr = none ∧
    (f.ObjAddr env a).1.base = 0 ∧
    (f.ObjAddr env a).1.baseDone = true := by
  have hcb : f.computeBase env a = (f, none) := by
    unfold ObjectFile.computeBase
    rw [hm]
  have hrs : resolveState env f a = { f with baseErr := none, baseDone := true } := by
    simp [resolveState, hdone, hcb]
  have hsub : sub64 a 0 = a := by
    simp [sub64, Nat.add_mod_right, Nat.mod_eq_of_lt ha]
  rw [objAddr_eq]
  refine ⟨?_, by simp [hrs], by simp [hrs, hbase], by simp [hrs]⟩
  simp [storedOutcome, hrs, hbase, hsub]

/-- Witness for C9: the mapping-less handle `stNil` translates address `123`
to itself, successfully. -/
theorem c9_nil_mapping_identity_witness :
    (stNil.ObjAddr env0 123).2.1 = .ok 123 :=
  (c9_nil_mapping_identity env0 stNil 123 rfl rfl rfl (by decide)).1

/-- C10: `Close` invoked on a nil `ObjectFile` reference performs no close
attempt and returns success (a nil error). -/
theorem c10_close_nil_receiver : closeGo none = ([], none) := rfl

theorem objAddr_ran (env : Env) (f : ObjectFile) (addr : Nat) :
    (f.ObjAddr env addr).2.2 = !f.baseDone := by
  rw [objAddr_eq]

theorem objAddr_res (env : Env) (f : ObjectFile) (addr : Nat) :
    (f.ObjAddr env addr).2.1 = storedOutcome (f.ObjAddr env addr).1 addr := by
  rw [objAddr_eq]

theorem runCalls_cons (env : Env) (f : ObjectFile) (a : Nat) (rest : List Nat) :
    runCalls env f (a :: rest) =
      ((runCalls env (f.ObjAddr env a).1 rest).1,
        (f.ObjAddr env a).2 :: (runCalls env (f.ObjAddr env a).1 rest).2) := rfl

theorem runCalls_done (env : Env) (f : ObjectFile) (addrs : List Nat)
    (h : f.baseDone = true) :
    (runCalls env f addrs).1 = f ∧
    (runCalls env f addrs).2.countP (fun o => o.2) = 0 ∧
    ∀ p ∈ addrs.zip (runCalls env f addrs).2, p.2.1 = storedOutcome f p.1 := by
  induction addrs with
  | nil =>
    refine ⟨rfl, rfl, ?_⟩
    intro p hp
    simp [runCalls] at hp
  | cons a rest ih =>
    have hobj := objAddr_of_done env f a h
    have h1 : (f.ObjAddr env a).1 = f := by rw [hobj]
    have h2 : (f.ObjAddr env a).2 = (storedOutcome f a, false) := by rw [hobj]
    obtain ⟨ih1, ih2, ih3⟩ := ih
    refine ⟨?_, ?_, ?_⟩
    · rw [runCalls_cons, h1, ih1]
    · rw [runCalls_cons, h1, h2]
      simp only [List.countP_cons, ih2]
      rfl
    · rw [runCalls_cons, h1, h2]
      intro p hp
      rw [List.zip_cons_cons] at hp
      rcases List.mem_cons.mp hp with hpe | hpr
      · subst hpe; rfl
      · exact ih3 p hpr

/-- C8: any serialization of N racing `ObjAddr` calls on a freshly loaded
handle executes the re-parse/select/compute sequence exactly once, leaves the
handle resolved, and every call observes the single stored outcome. -/
theorem c8_exactly_once (env : Env) (f : ObjectFile) (addrs : List Nat)
    (hdone : f.baseDone = false) (hne : addrs ≠ []) :
    ((runCalls env f addrs).2.countP (fun o => o.2) = 1) ∧
    ((runCalls env f addrs).1.baseDone = true) ∧
    (∀ p ∈ addrs.zip (runCalls env f addrs).2,
        p.2.1 = storedOutcome (runCalls env f addrs).1 p.1) := by
  cases addrs with
  | nil => exact absurd rfl hne
  | cons a rest =>
    have hd1 : (f.ObjAddr env a).1.baseDone = true := objAddr_done_state env f a
    obtain ⟨r1, r2, r3⟩ := runCalls_done env (f.ObjAddr env a).1 rest hd1
    have hran : (f.ObjAddr env a).2.2 = true := by
      rw [objAddr_ran, hdone]; rfl
    refine ⟨?_, ?_, ?_⟩
    · rw [runCalls_cons]
      simp only [List.countP_cons, r2, hran]
      rfl
    · rw [runCalls_cons]
      show (runCalls env (f.ObjAddr env a).1 rest).1.baseDone = true
      rw [r1]
      exact hd1
    · rw [runCalls_cons]
      intro p hp
      rw [List.zip_cons_cons] at hp
      show p.2.1 = storedOutcome (runCalls env (f.ObjAddr env a).1 rest).1 p.1
      rw [r1]
      rcases List.mem_cons.mp hp with hpe | hpr
      · subst hpe
        exact objAddr_res env f a
      · exact r3 p hpr

/-- Witness for C8: three racing calls on `st0` (one out-of-bounds first)
trigger exactly one computation. -/
theorem c8_exactly_once_witness :
    (runCalls env0 st0 [9999, 5000, 4096]).2.countP (fun o => o.2) = 1 :=
  (c8_exactly_once env0 st0 [9999, 5000, 4096] rfl (by decide)).1

/-- C3: program-segment selection takes the kernel-style path — returning the
delegated text-segment lookup successfully, independent of the queried
address — exactly when `kernelOffset` is set, or `start >= limit`, or
`limit >= 2^63`; when the condition fails the text lookup is never consulted
(the result is the same for any two lookups). -/
theorem c3_kernel_style_path (m : Mapping) :
    ((m.kernelOffset.isSome ∨ m.limit ≤ m.start ∨ 2 ^ 63 ≤ m.limit) →
      ∀ (findText : ElfFile → Option ProgHeader) (ef : ElfFile) (addr : Nat),
        Mapping.findProgramHeader findText m ef addr = .ok (findText ef)) ∧
    (¬(m.kernelOffset.isSome ∨ m.limit ≤ m.start ∨ 2 ^ 63 ≤ m.limit) →
      ∀ (ft1 ft2 : ElfFile → Option ProgHeader) (ef : ElfFile) (addr : Nat),
        Mapping.findProgramHeader ft1 m ef addr =
          Mapping.findProgramHeader ft2 m ef addr) := by
  constructor
  · intro hc findText ef addr
    unfold Mapping.findProgramHeader
    rw [if_pos hc]
  · intro hc ft1 ft2 ef addr
    unfold Mapping.findProgramHeader
    rw [if_neg hc, if_neg hc]

/-- Witness for C3: a mapping with `kernelOffset` set returns the text lookup
result for a userspace-looking window and address. -/
theorem c3_kernel_style_path_witness :
    Mapping.findProgramHeader (fun _ => some pA) mK efU 5000 = .ok (some pA) :=
  (c3_kernel_style_path mK).1 (Or.inl (by decide)) (fun _ => some pA) efU 5000

/-- C2: for a non-kernel-style mapping (no `kernelOffset`, `start < limit`,
`limit < 2^63`), segment selection returns success with no header when the
file has no loadable segments; fails when loadable segments exist but none
overlap the `(offset, limit - start)` window; returns the unique overlapping
segment; and with several overlapping segments selects the one whose
file-offset range contains `addr - start + offset`, failing when that lookup
finds none or several. -/
theorem c2_segment_selection (findText : ElfFile → Option ProgHeader)
    (m : Mapping) (ef : ElfFile) (addr : Nat)
    (hk : m.kernelOffset = none) (hsl : m.start < m.limit)
    (hlim : m.limit < 2 ^ 63) :
    (loadableSegments ef = [] →
      Mapping.findProgramHeader findText m ef addr = .ok none) ∧
    (programHeadersForMapping (loadableSegments ef) m.offset (m.limit - m.start) = [] →
      loadableSegments ef ≠ [] →
      Mapping.findProgramHeader findText m ef addr = .error .noProgHeaderMatches) ∧
    (∀ h, programHeadersForMapping (loadableSegments ef) m.offset (m.limit - m.start) = [h] →
      Mapping.findProgramHeader findText m ef addr = .ok (some h)) ∧
    (∀ h1 h2 hs,
      programHeadersForMapping (loadableSegments ef) m.offset (m.limit - m.start)
          = h1 :: h2 :: hs →
      (containingHeaders (h1 :: h2 :: hs) (m.translatedFileOffset addr) = [] →
        Mapping.findProgramHeader findText m ef addr =
          .error (.noHeaderForOffset (m.translatedFileOffset addr))) ∧
      (∀ h, containingHeaders (h1 :: h2 :: hs) (m.translatedFileOffset addr) = [h] →
        Mapping.findProgramHeader findText m ef addr = .ok (some h)) ∧
      (∀ c1 c2 cs,
        containingHeaders (h1 :: h2 :: hs) (m.translatedFileOffset addr) = c1 :: c2 :: cs →
        Mapping.findProgramHeader findText m ef addr =
          .error (.ambiguousHeaderForOffset (m.translatedFileOffset addr)))) := by
  have hg : ¬(m.kernelOffset.isSome ∨ m.limit ≤ m.start ∨ 2 ^ 63 ≤ m.limit) := by
    intro hcon
    rcases hcon with hcon | hcon | hcon
    · rw [hk] at hcon
      simp at hcon
    · omega
    · omega
  refine ⟨?_, ?_, ?_, ?_⟩
  · intro hload
    unfold Mapping.findProgramHeader
    rw [if_neg hg, hload]
  · intro hph hload
    cases hl2 : loadableSegments ef with
    | nil => exact absurd hl2 hload
    | cons p ps =>
      unfold Mapping.findProgramHeader
      rw [if_neg hg, hl2]
      dsimp only
      rw [hl2] at hph
      rw [hph]
  · intro h hph
    cases hl2 : loadableSegments ef with
    | nil =>
      rw [hl2] at hph
      simp [programHeadersForMapping] at hph
    | cons p ps =>
      unfold Mapping.findProgramHeader
      rw [if_neg hg, hl2]
      dsimp only
      rw [hl2] at hph
      rw [hph]
  · intro h1 h2 hs hph
    cases hl2 : loadableSegments ef with
    | nil =>
      rw [hl2] at hph
      simp [programHeadersForMapping] at hph
    | cons p ps =>
      have hres : Mapping.findProgramHeader findText m ef addr =
          (headerForFileOffset (h1 :: h2 :: hs) (m.translatedFileOffset addr)).map some := by
        unfold Mapping.findProgramHeader
        rw [if_neg hg, hl2]
        dsimp only
        rw [hl2] at hph
        rw [hph]
      refine ⟨?_, ?_, ?_⟩
      · intro hc
        rw [hres]
        unfold headerForFileOffset
        rw [hc]
        rfl
      · intro h hc
        rw [hres]
        unfold headerForFileOffset
        rw [hc]
        rfl
      · intro c1 c2 cs hc
        rw [hres]
        unfold headerForFileOffset
        rw [hc]
        rfl

/-- Witness for C2: both `pA` and `pB` overlap `mU`'s window; address `8192`
translates to file offset `4096`, selecting `pB`. -/
theorem c2_segment_selection_witness :
    Mapping.findProgramHeader (fun _ => none) mU efU 8192 = .ok (some pB) :=
  ((c2_segment_selection (fun _ => none) mU efU 8192 rfl (by decide)
      (by decide)).2.2.2 pA pB [] rfl).2.1 pB rfl

/-! Helper lemmas about `openGo`. -/

theorem openGo_eq (env : Env) (file : GoFile) (start limit offset : Nat)
    (rs : String) (ef : ElfFile) (ko : Option Nat)
    (hef : env.elfNewFileRes = .ok ef)
    (hko : (if needsSymbolScan file.name start limit offset
            then scanKernelOffset ef.symtab rs else .ok none) = Except.ok ko) :
    openGo env (some file) start limit offset rs =
      (⟨needsSymbolScan file.name start limit offset,
        some ⟨ef.fileHeader, env.findText ef, ko, start, limit, offset⟩⟩,
       match env.getBase ef.fileHeader (env.findText ef) ko start limit offset with
       | .error e => .error (.couldNotIdentifyBase file.name e)
       | .ok _ => .ok { path := file.name
                        buildID := match env.buildIDRes with
                                   | .ok id => id
                                   | .error _ => ""
                        file := some file
                        debuginfoFile := none
                        baseDone := false, base := 0, isData := false
                        baseErr := none
                        m := some ⟨start, limit, offset, ko⟩ }) := by
  unfold openGo
  rw [hef]
  dsimp only
  rw [hko]
  dsimp only
  cases hgb : env.getBase ef.fileHeader (env.findText ef) ko start limit offset <;> rfl

theorem openGo_scan_err (env : Env) (file : GoFile) (start limit offset : Nat)
    (rs : String) (ef : ElfFile) (e : Err)
    (hef : env.elfNewFileRes = .ok ef)
    (hsc : needsSymbolScan file.name start limit offset = true)
    (hscan : scanKernelOffset ef.symtab rs = .error e) :
    openGo env (some file) start limit offset rs = (⟨true, none⟩, .error e) := by
  unfold openGo
  rw [hef]
  dsimp only
  rw [if_pos hsc, hscan, hsc]

/-- C5 counterexample: with `kernel_offset` unset (`env5` scans nothing), the
feasibility call still receives the text program header `pA`, not "no program
header" as the claim requires. -/
theorem c5_counterexample :
    ((openGo env5 (some file5) 0 4096 0 "").1.getBaseArgs =
      some ⟨⟨5⟩, some pA, none, 0, 4096, 0⟩) ∧
    (some pA ≠ (none : Option ProgHeader)) :=
  ⟨rfl, by simp⟩

/-- C5 amended: the feasibility check invokes the base-computation primitive
with the ELF header, the text-segment lookup's program header
unconditionally, the kernel offset, and the mapping bounds; its computed
value is discarded, failure aborts `open` with an error, and success yields
a handle whose resolution state is still unresolved. -/
theorem c5_feasibility_check (env : Env) (file : GoFile)
    (start limit offset : Nat) (rs : String) (ef : ElfFile) (ko : Option Nat)
    (hef : env.elfNewFileRes = .ok ef)
    (hko : (if needsSymbolScan file.name start limit offset
            then scanKernelOffset ef.symtab rs else .ok none) = Except.ok ko) :
    ((openGo env (some file) start limit offset rs).1.getBaseArgs =
        some ⟨ef.fileHeader, env.findText ef, ko, start, limit, offset⟩) ∧
    (∀ e, env.getBase ef.fileHeader (env.findText ef) ko start limit offset = .error e →
      (openGo env (some file) start limit offset rs).2 =
        .error (.couldNotIdentifyBase file.name e)) ∧
    (∀ b, env.getBase ef.fileHeader (env.findText ef) ko start limit offset = .ok b →
      (openGo env (some file) start limit offset rs).2 =
        .ok { path := file.name
              buildID := match env.buildIDRes with
                         | .ok id => id
                         | .error _ => ""
              file := some file
              debuginfoFile := none
              baseDone := false, base := 0, isData := false
              baseErr := none
              m := some ⟨start, limit, offset, ko⟩ }) := by
  rw [openGo_eq env file start limit offset rs ef ko hef hko]
  refine ⟨rfl, ?_, ?_⟩
  · intro e hgb
    show (match env.getBase ef.fileHeader (env.findText ef) ko start limit offset with
          | Except.error e => Except.error (Err.couldNotIdentifyBase file.name e)
          | Except.ok _ => Except.ok _) = _
    rw [hgb]
  · intro b hgb
    show (match env.getBase ef.fileHeader (env.findText ef) ko start limit offset with
          | Except.error e => Except.error (Err.couldNotIdentifyBase file.name e)
          | Except.ok _ => Except.ok _) = _
    rw [hgb]

/-- Witness for the amended C5: `env5` performs no scan, and the feasibility
call receives the text header with no kernel offset. -/
theorem c5_feasibility_check_witness :
    (openGo env5 (some file5) 0 4096 0 "").1.getBaseArgs =
      some ⟨ef5.fileHeader, env5.findText ef5, none, 0, 4096, 0⟩ :=
  (c5_feasibility_check env5 file5 0 4096 0 "" ef5 none rfl rfl).1

/-- C6: the symbol-table scan happens exactly when the path contains
"vmlinux" or `start`, `limit` or `offset` is not 4096-aligned; an empty
candidate symbol defaults to `_stext`; a scan failure other than
no-symbol-table aborts `open` with that error; absence of the symbol table or
of the sought symbol is non-fatal and leaves the kernel offset unset. -/
theorem c6_symbol_scan (env : Env) (file : GoFile) (start limit offset : Nat)
    (rs : String) (ef : ElfFile)
    (hef : env.elfNewFileRes = .ok ef) :
    ((openGo env (some file) start limit offset rs).1.scanned =
        needsSymbolScan file.name start limit offset) ∧
    (∀ syms, scanKernelOffset (.ok syms) "" = scanKernelOffset (.ok syms) "_stext") ∧
    (needsSymbolScan file.name start limit offset = true →
      ∀ e, ef.symtab = .error e → e ≠ .noSymbols →
        (openGo env (some file) start limit offset rs).2 = .error e) ∧
    (needsSymbolScan file.name start limit offset = true →
      ef.symtab = .error .noSymbols →
        (openGo env (some file) start limit offset rs).1.getBaseArgs =
          some ⟨ef.fileHeader, env.findText ef, none, start, limit, offset⟩) ∧
    (needsSymbolScan file.name start limit offset = true →
      ∀ syms, ef.symtab = .ok syms →
        (syms.find? fun s => s.1 == (if rs == "" then "_stext" else rs)) = none →
        (openGo env (some file) start limit offset rs).1.getBaseArgs =
          some ⟨ef.fileHeader, env.findText ef, none, start, limit, offset⟩) := by
  refine ⟨?_, ?_, ?_, ?_, ?_⟩
  · unfold openGo
    rw [hef]
    dsimp only
    cases hks : (if needsSymbolScan file.name start limit offset
                 then scanKernelOffset ef.symtab rs
                 else (.ok none : Except Err (Option Nat))) with
    | error e => rfl
    | ok ko =>
      dsimp only
      cases hgb : env.getBase ef.fileHeader (env.findText ef) ko start limit offset <;> rfl
  · intro syms
    rfl
  · intro hsc e hsym hne
    have hscan : scanKernelOffset ef.symtab rs = .error e := by
      rw [hsym]
      cases e <;> first | exact absurd rfl hne | rfl
    rw [openGo_scan_err env file start limit offset rs ef e hef hsc hscan]
  · intro hsc hsym
    have hko : (if needsSymbolScan file.name start limit offset
                then scanKernelOffset ef.symtab rs else .ok none) =
        Except.ok (none : Option Nat) := by
      rw [if_pos hsc, hsym]
      rfl
    rw [openGo_eq env file start limit offset rs ef none hef hko]
  · intro hsc syms hsym hfind
    have hko : (if needsSymbolScan file.name start limit offset
                then scanKernelOffset ef.symtab rs else .ok none) =
        Except.ok (none : Option Nat) := by
      rw [if_pos hsc, hsym]
      unfold scanKernelOffset scanKernelOffset.scanFind
      dsimp only
      rw [hfind]
      rfl
    rw [openGo_eq env file start limit offset rs ef none hef hko]

/-- Witness for C6: a `vmlinux` path forces the scan; `ef6` has no symbol
table, which is non-fatal, and the feasibility call sees no kernel offset. -/
theorem c6_symbol_scan_witness :
    (openGo env6 (some file6) 0 0 0 "").1.getBaseArgs =
      some ⟨ef6.fileHeader, env6.findText ef6, none, 0, 0, 0⟩ :=
  (c6_symbol_scan env6 file6 0 0 0 "" ef6 rfl).2.2.2.1 (by decide) rfl

/-- C7: `Close` attempts to close the primary file and, if present, the
debug-info file, unconditionally (the attempt list is independent of either
close's outcome); when both closes fail the returned error joins both
failures; on a handle with no open resources it is a successful no-op. -/
theorem c7_close_both (ob : ObjectFile) :
    (∀ gf df, ob.file = some gf → ob.debuginfoFile = some df →
      ((closeGo (some ob)).1 = ["File", "DebuginfoFile"] ∧
       ∀ e1 e2, gf.closeRes = some e1 → df.closeRes = some e2 →
         (closeGo (some ob)).2 = some (.joined2 (.joined1 e1) e2))) ∧
    (ob.file = none → ob.debuginfoFile = none →
      closeGo (some ob) = ([], none)) := by
  constructor
  · intro gf df hf hdf
    constructor
    · unfold closeGo
      dsimp only
      rw [hf, hdf]
      rfl
    · intro e1 e2 he1 he2
      unfold closeGo
      dsimp only
      rw [hf, hdf]
      dsimp only
      rw [he1, he2]
      rfl
  · intro hf hdf
    unfold closeGo
    dsimp only
    rw [hf, hdf]

/-- Witness for C7: on `obC`, whose two resources both fail to close, both
closes are attempted and the error joins both failures. -/
theorem c7_close_both_witness :
    ((closeGo (some obC)).1 = ["File", "DebuginfoFile"]) ∧
    ((closeGo (some obC)).2 = some (.joined2 (.joined1 eA) eB)) :=
  ⟨((c7_close_both obC).1 ⟨"f", some eA⟩ ⟨"d", some eB⟩ rfl rfl).1,
   ((c7_close_both obC).1 ⟨"f", some eA⟩ ⟨"d", some eB⟩ rfl rfl).2 eA eB rfl rfl⟩

end ParcaObjectFile
